import Mathlib

/-!
Shallow embedding of `src/nautilus_trader/adapters/databento/common.py`.

The file under verification has two components:

* `databento_schema_from_nautilus_bar_type` — validates a Nautilus `BarType`
  and maps it to a Databento OHLCV schema tag;
* `map_instrumentId` — an `lru_cache(20)`-memoized rewrite of instrument
  identifiers between Databento GLBX and Interactive Brokers CME conventions.

Python strings are embedded as `List Char`; the symbol rewrite's negative
indexing (`s[-1]`, `s[-2]`, slices `s[:-1]`, `s[:-2]`) is translated with the
exact Python semantics, including the `IndexError` that `s[-2]` raises on a
string of fewer than two characters.  Fallible operations return `Except`.
The hidden wall-clock read `dt.datetime.now().year` is threaded as an
explicit `year : Nat` argument.
-/

set_option autoImplicit false

namespace Databento

/-- Modelled from the spec: `BarAggregation` is the upstream Nautilus
enumeration of bar units.  The spec lists SECOND, MINUTE, HOUR, DAY and says
"others may exist upstream but are invalid for this resolver"; the constructors
below include the upstream time-based units (sub-second and calendar units)
and the tick/volume/value families, so that both "non-time aggregation" and
"time aggregation outside the four supported units" are representable. -/
inductive BarAggregation where
  | TICK
  | TICK_IMBALANCE
  | VOLUME
  | VOLUME_IMBALANCE
  | VALUE
  | VALUE_IMBALANCE
  | MILLISECOND
  | SECOND
  | MINUTE
  | HOUR
  | DAY
  | WEEK
  | MONTH
deriving DecidableEq, Repr

/-- Modelled from the spec: the upstream `PriceType` field selector; "only
LAST is valid here", with BID, ASK, MID named as the invalid alternatives. -/
inductive PriceType where
  | BID
  | ASK
  | MID
  | LAST
deriving DecidableEq, Repr

/-- Modelled from the spec: `AggregationSource` is "enumerated
EXTERNAL, INTERNAL". -/
inductive AggregationSource where
  | EXTERNAL
  | INTERNAL
deriving DecidableEq, Repr

/-- Modelled from the spec: the Databento schema tags this resolver can
return, one of OHLCV_1S, OHLCV_1M, OHLCV_1H, OHLCV_1D (the upstream
`DatabentoSchema` enum in `adapters/databento/enums.py` is not in scope). -/
inductive DatabentoSchema where
  | OHLCV_1S
  | OHLCV_1M
  | OHLCV_1H
  | OHLCV_1D
deriving DecidableEq, Repr

/-- Embedding of `BarSpecification`: aggregation unit, price field and step, as consumed
through `bar_type.spec` in the source. -/
structure BarSpecification where
  aggregation : BarAggregation
  price_type : PriceType
  step : Nat
deriving DecidableEq, Repr

/-- Embedding of `BarType` as consumed by the source: its specification and its
aggregation source. -/
structure BarType where
  spec : BarSpecification
  aggregation_source : AggregationSource
deriving DecidableEq, Repr

/-- Modelled from the spec: `BarSpecification.is_time_aggregated()` (upstream
Nautilus model code, not in scope) holds for the time-based units; the spec
notes that aggregation values can pass this check and still fall outside the
four supported units and reach the resolver's final mapping step, so the
time-based units include the sub-second and calendar units. -/
def BarSpecification.is_time_aggregated (s : BarSpecification) : Bool :=
  match s.aggregation with
  | .MILLISECOND | .SECOND | .MINUTE | .HOUR | .DAY | .WEEK | .MONTH => true
  | _ => false

/-- Modelled from the spec: `BarType.is_externally_aggregated()` (upstream
Nautilus model code, not in scope) tests `aggregation_source == EXTERNAL`. -/
def BarType.is_externally_aggregated (bt : BarType) : Bool :=
  bt.aggregation_source = AggregationSource.EXTERNAL

/-- Modelled from the spec: the `BarType` string form used only in error
messages, a hyphenated rendering of the fields; the exact text is an external
type's responsibility, so any injective rendering serves. -/
def barTypeStr (bt : BarType) : String :=
  reprStr bt.spec.aggregation ++ "-" ++ toString bt.spec.step ++ "-"
    ++ reprStr bt.spec.price_type ++ "-" ++ reprStr bt.aggregation_source

/-- The resolver's failure modes.  `contractViolation` embeds the
`PyCondition.true` failure (a programming-contract failure per the spec);
`unsupportedBarType` embeds the `raise ValueError(f"Invalid bar type
'{bar_type}' ...")` sites and carries the rejected bar type's string form
together with the branch-specific detail text. -/
inductive ResolveError where
  | contractViolation (msg : String)
  | unsupportedBarType (barType : String) (detail : String)
deriving DecidableEq, Repr

/-- Embedding of `databento_schema_from_nautilus_bar_type` from the source, line by line:
the `PyCondition.true` contract check, the three validation `raise`s, and the
exhaustive `match` on the aggregation with a raising default branch. -/
def databento_schema_from_nautilus_bar_type (bar_type : BarType) :
    Except ResolveError DatabentoSchema :=
  if ¬ bar_type.is_externally_aggregated then
    .error (.contractViolation "aggregation_source is not EXTERNAL")
  else if ¬ bar_type.spec.is_time_aggregated then
    .error (.unsupportedBarType (barTypeStr bar_type)
      "only time bars are aggregated by Databento")
  else if bar_type.spec.price_type ≠ PriceType.LAST then
    .error (.unsupportedBarType (barTypeStr bar_type)
      "only LAST price bars are aggregated by Databento")
  else if bar_type.spec.step ≠ 1 then
    .error (.unsupportedBarType (barTypeStr bar_type)
      "only a step of 1 is supported by Databento")
  else
    match bar_type.spec.aggregation with
    | .SECOND => .ok .OHLCV_1S
    | .MINUTE => .ok .OHLCV_1M
    | .HOUR => .ok .OHLCV_1H
    | .DAY => .ok .OHLCV_1D
    | _ => .error (.unsupportedBarType (barTypeStr bar_type)
        "use any of SECOND, MINUTE, HOUR, DAY time aggregations")

/-- Embedding of `InstrumentId`: a symbol and a venue.  The symbol is a Python string,
embedded as its character sequence; the venue is only ever compared and
copied whole, so it stays a `String`. -/
structure InstrumentId where
  symbol : List Char
  venue : String
deriving DecidableEq, Repr

/-- Characters of a string literal, for writing concrete symbols. -/
def strChars (s : String) : List Char :=
  s.data

/-- The transcoder's failure mode: the `IndexError` that
`instrument_id.symbol.value[-2]` raises on a symbol of fewer than two
characters, named per the spec's error taxonomy (`MalformedIdentifierError`)
and propagated to the caller. -/
inductive TranscodeError where
  | malformedIdentifier
deriving DecidableEq, Repr

/-- Embedding of `str(dt.datetime.now().year)[0]`: the first character of the decimal
string representation of the year (never empty for a `Nat`). -/
def yearFirstChar (year : Nat) : Char :=
  (Nat.repr year).data.headD '0'

/-- The venue transform of `map_instrumentId`: the two-way GLBX/CME swap,
other venues pass through. -/
def mapVenue (venue : String) : String :=
  if venue = "GLBX" then "CME"
  else if venue = "CME" then "GLBX"
  else venue

/-- The symbol transform of `map_instrumentId`, with Python's indexing
semantics: `sym[-2]` is `sym.get (length - 2)` and raises `IndexError` when
the symbol has fewer than two characters (this happens while evaluating the
first branch's test, before any branch is chosen); `sym[:-2]` is
`take (length - 2)`, `sym[:-1]` is `take (length - 1)`, `sym[-1]` is
`get (length - 1)`. -/
def mapSymbol (sym : List Char) (year : Nat) : Except TranscodeError (List Char) :=
  if h : 2 ≤ sym.length then
    -- instrument_id.symbol.value[-2] and [-1]
    let pen : Char := sym.get ⟨sym.length - 2, by omega⟩
    let lst : Char := sym.get ⟨sym.length - 1, by omega⟩
    if pen.isDigit then
      -- new_symbol = value[:-2] + value[-1]
      .ok (sym.take (sym.length - 2) ++ [lst])
    else if lst.isDigit then
      -- new_symbol = value[:-1] + str(dt.datetime.now().year)[0] + value[-1]
      .ok (sym.take (sym.length - 1) ++ [yearFirstChar year, lst])
    else
      -- new_symbol = instrument_id.symbol.value
      .ok sym
  else
    -- value[-2] raises IndexError: string index out of range
    .error .malformedIdentifier

/-- Embedding of `map_instrumentId` from the source, with the hidden wall-clock year as an
explicit argument.  The final `InstrumentId.from_str(f"{new_symbol}.{new_venue}")`
is modelled from the spec's string form `"{symbol}.{venue}"` as the direct
reconstruction of the pair (the upstream `from_str` is not in scope). -/
def map_instrumentId (instrument_id : InstrumentId) (year : Nat) :
    Except TranscodeError InstrumentId :=
  match mapSymbol instrument_id.symbol year with
  | .ok new_symbol => .ok ⟨new_symbol, mapVenue instrument_id.venue⟩
  | .error e => .error e

instance {ε α : Type} [DecidableEq ε] [DecidableEq α] : DecidableEq (Except ε α) := fun a b =>
  match a, b with
  | .ok x, .ok y =>
    if h : x = y then .isTrue (by rw [h]) else .isFalse (by simp [h])
  | .ok _, .error _ => .isFalse (fun hc => Except.noConfusion hc)
  | .error _, .ok _ => .isFalse (fun hc => Except.noConfusion hc)
  | .error x, .error y =>
    if h : x = y then .isTrue (by rw [h]) else .isFalse (by simp [h])

/-- Modelled from the spec: the bounded memoization that `@lru_cache(20)`
wraps around `map_instrumentId` — a mapping from input identifier to output
identifier with capacity 20 and least-recently-used eviction.  Entries are
kept most-recently-used first. -/
structure TranscodeCache where
  entries : List (InstrumentId × InstrumentId)
deriving DecidableEq, Repr

/-- The `maxsize=20` argument of the `lru_cache` decorator. -/
def lruCapacity : Nat := 20

/-- Modelled from the spec: cache lookup, keyed by the full input identifier
(symbol + venue pair). -/
def TranscodeCache.lookup (c : TranscodeCache) (k : InstrumentId) : Option InstrumentId :=
  (c.entries.find? (fun e => decide (e.1 = k))).map Prod.snd

/-- Modelled from the spec: one call through the `lru_cache(20)` wrapper of
`map_instrumentId`.  A hit returns the stored output without re-running the
rewrite and refreshes the entry's recency; a miss runs `map_instrumentId`
and, on success, inserts the result, evicting the least-recently-used entry
beyond capacity 20.  As in `functools.lru_cache`, a call that raises caches
nothing. -/
def cachedMapInstrumentId (c : TranscodeCache) (k : InstrumentId) (year : Nat) :
    Except TranscodeError InstrumentId × TranscodeCache :=
  match c.lookup k with
  | some v => (.ok v, ⟨(k, v) :: c.entries.eraseP (fun e => decide (e.1 = k))⟩)
  | none =>
    match map_instrumentId k year with
    | .ok v => (.ok v, ⟨((k, v) :: c.entries).take lruCapacity⟩)
    | .error e => (.error e, c)

/-- Transcode a sequence of identifiers through the shared cache, returning
the final cache state. -/
def runTranscodes (c : TranscodeCache) (ks : List InstrumentId) (year : Nat) :
    TranscodeCache :=
  ks.foldl (fun acc k => (cachedMapInstrumentId acc k year).2) c

/-- Whether `map_instrumentId` returns normally on this input. -/
def transcodeOk (k : InstrumentId) (year : Nat) : Bool :=
  match map_instrumentId k year with
  | .ok _ => true
  | .error _ => false

/-- Twenty-one pairwise-distinct identifiers, used to exercise eviction. -/
def evictionIds : List InstrumentId :=
  (List.range 21).map (fun i => ⟨strChars "AB", Nat.repr i⟩)

end Databento

namespace Databento

/-- Evaluation of `mapSymbol` on a symbol split into its stem, penultimate
character and final character: the three branches of the source rewrite. -/
theorem mapSymbol_append (s : List Char) (p l : Char) (year : Nat) :
    mapSymbol (s ++ [p, l]) year =
      if p.isDigit then .ok (s ++ [l])
      else if l.isDigit then .ok (s ++ [p, yearFirstChar year, l])
      else .ok (s ++ [p, l]) := by
  have h2 : 2 ≤ (s ++ [p, l]).length := by simp
  rw [mapSymbol, dif_pos h2]
  simp only [List.get_eq_getElem, List.length_append, List.length_cons,
    List.length_nil, Nat.add_zero, Nat.zero_add]
  have e2 : s.length + 2 - 2 = s.length := by omega
  have e1 : s.length + 2 - 1 = s.length + 1 := by omega
  simp only [e1, e2]
  rw [List.getElem_append_right (Nat.le_refl s.length),
    List.getElem_append_right (Nat.le_add_right s.length 1)]
  simp only [Nat.sub_self, Nat.add_sub_cancel_left, List.getElem_cons_zero,
    List.getElem_cons_succ]
  rw [List.take_append_eq_append_take, List.take_append_eq_append_take,
    List.take_length]
  simp [List.take_of_length_le (Nat.le_add_right s.length 1)]

/-- Every symbol of at least two characters splits into a stem, a penultimate
character and a final character. -/
theorem exists_append_two (sym : List Char) (h : 2 ≤ sym.length) :
    ∃ s p l, sym = s ++ [p, l] := by
  cases hr : sym.reverse with
  | nil =>
    have : sym.length = 0 := by
      have := congrArg List.length hr
      simpa using this
    omega
  | cons lst t =>
    cases t with
    | nil =>
      have : sym.length = 1 := by
        have := congrArg List.length hr
        simpa using this
      omega
    | cons pen rest =>
      refine ⟨rest.reverse, pen, lst, ?_⟩
      have := congrArg List.reverse hr
      simpa using this

/-- On a symbol of fewer than two characters `mapSymbol` fails, as the Python
code's `value[-2]` does. -/
theorem mapSymbol_short (sym : List Char) (year : Nat) (h : sym.length < 2) :
    mapSymbol sym year = .error .malformedIdentifier := by
  rw [mapSymbol, dif_neg (by omega)]

/-- A successful symbol rewrite yields a successful transcode with the venue
swapped. -/
theorem map_instrumentId_ok (id : InstrumentId) (year : Nat) (s : List Char)
    (hs : mapSymbol id.symbol year = .ok s) :
    map_instrumentId id year = .ok ⟨s, mapVenue id.venue⟩ := by
  rw [map_instrumentId, hs]

/-- The venue of a successful transcode is always the swapped venue. -/
theorem map_instrumentId_venue (id out : InstrumentId) (year : Nat)
    (h : map_instrumentId id year = .ok out) :
    out.venue = mapVenue id.venue := by
  rw [map_instrumentId] at h
  cases hs : mapSymbol id.symbol year with
  | ok s => rw [hs] at h; cases h; rfl
  | error e => rw [hs] at h; cases h

/-- The venue swap is an involution on all venues. -/
theorem mapVenue_involutive (v : String) : mapVenue (mapVenue v) = v := by
  by_cases h1 : v = "GLBX"
  · simp [mapVenue, h1]
  · by_cases h2 : v = "CME"
    · simp [mapVenue, h1, h2]
    · simp [mapVenue, h1, h2]

/-- Venues outside the GLBX/CME pair are fixed points of the venue swap. -/
theorem mapVenue_fixed (v : String) (h1 : v ≠ "GLBX") (h2 : v ≠ "CME") :
    mapVenue v = v := by
  simp [mapVenue, h1, h2]

/-- A key absent from the cache's key list does not resolve on lookup. -/
theorem lookup_eq_none (c : TranscodeCache) (k : InstrumentId)
    (h : k ∉ c.entries.map Prod.fst) : c.lookup k = none := by
  rw [TranscodeCache.lookup, List.find?_eq_none.mpr, Option.map_none']
  intro e he
  simp only [decide_eq_true_eq]
  intro hek
  exact h (hek ▸ List.mem_map_of_mem Prod.fst he)

/-- Truncating the right operand of an append before taking does not change
the take. -/
theorem take_append_take {α : Type} (a b : List α) (n : Nat) :
    (a ++ b.take n).take n = (a ++ b).take n := by
  rw [List.take_append_eq_append_take, List.take_append_eq_append_take,
    List.take_take]
  exact congrArg (a.take n ++ ·)
    (congrArg b.take (Nat.min_eq_left (Nat.sub_le n a.length)))

/-- After transcoding a sequence of pairwise-distinct, successfully rewritten
identifiers none of which is already cached, the cache keys are the most
recent `lruCapacity` of them, most recent first. -/
theorem runTranscodes_keys (year : Nat) (ks : List InstrumentId)
    (acc : List (InstrumentId × InstrumentId))
    (hok : ∀ i ∈ ks, transcodeOk i year = true)
    (hnd : ks.Nodup)
    (hfresh : ∀ i ∈ ks, i ∉ acc.map Prod.fst)
    (hlen : acc.length ≤ lruCapacity) :
    (runTranscodes ⟨acc⟩ ks year).entries.map Prod.fst =
      (ks.reverse ++ acc.map Prod.fst).take lruCapacity := by
  induction ks generalizing acc with
  | nil =>
    simp only [runTranscodes, List.foldl_nil, List.reverse_nil, List.nil_append]
    rw [List.take_of_length_le (by simpa using hlen)]
  | cons k rest ih =>
    have hkfresh : k ∉ acc.map Prod.fst := hfresh k (List.mem_cons_self k rest)
    have hlk : TranscodeCache.lookup ⟨acc⟩ k = none := lookup_eq_none ⟨acc⟩ k hkfresh
    obtain ⟨w, hw⟩ : ∃ w, map_instrumentId k year = .ok w := by
      have hk := hok k (List.mem_cons_self k rest)
      rw [transcodeOk] at hk
      cases hmk : map_instrumentId k year with
      | ok w => exact ⟨w, rfl⟩
      | error e => rw [hmk] at hk; simp at hk
    have hstep : runTranscodes ⟨acc⟩ (k :: rest) year =
        runTranscodes ⟨((k, w) :: acc).take lruCapacity⟩ rest year := by
      rw [runTranscodes, List.foldl_cons, cachedMapInstrumentId, hlk, hw]
      rfl
    rw [hstep]
    have hnodk : k ∉ rest := (List.nodup_cons.mp hnd).1
    rw [ih (((k, w) :: acc).take lruCapacity)
      (fun i hi => hok i (List.mem_cons_of_mem k hi))
      (List.nodup_cons.mp hnd).2
      ?_ ?_]
    · rw [List.map_take]
      simp only [List.map_cons]
      rw [take_append_take, List.reverse_cons, List.append_assoc]
      rfl
    · intro i hi hmem
      rw [List.map_take, List.map_cons] at hmem
      have hmem' := List.take_subset lruCapacity (k :: acc.map Prod.fst) hmem
      rcases List.mem_cons.mp hmem' with h1 | h2
      · exact hnodk (h1 ▸ hi)
      · exact hfresh i (List.mem_cons_of_mem k hi) h2
    · rw [List.length_take]
      exact Nat.min_le_left _ _

/-- Claim C1: on a symbol whose last character is a digit and whose
penultimate character is not, the transcoder inserts the first character of
the decimal representation of the year immediately before the final digit;
in particular `ESH4.CME` with year 2024 transcodes to `ESH24.GLBX`. -/
theorem transcode_single_digit_inserts_decade (id : InstrumentId) (year : Nat)
    (s : List Char) (p l : Char) (hsym : id.symbol = s ++ [p, l])
    (hp : p.isDigit = false) (hl : l.isDigit = true) :
    map_instrumentId id year = .ok ⟨s ++ [p, yearFirstChar year, l], mapVenue id.venue⟩ ∧
      map_instrumentId ⟨strChars "ESH4", "CME"⟩ 2024 = .ok ⟨strChars "ESH24", "GLBX"⟩ := by
  refine ⟨?_, rfl⟩
  apply map_instrumentId_ok
  rw [hsym, mapSymbol_append, if_neg (by simp [hp]), if_pos hl]

/-- Witness for claim C1 at symbol `ABC7`, venue `XNAS`, year 1999. -/
theorem transcode_single_digit_inserts_decade_witness :
    map_instrumentId ⟨strChars "ABC7", "XNAS"⟩ 1999 =
        .ok ⟨strChars "AB" ++ ['C', yearFirstChar 1999, '7'], mapVenue "XNAS"⟩ ∧
      map_instrumentId ⟨strChars "ESH4", "CME"⟩ 2024 = .ok ⟨strChars "ESH24", "GLBX"⟩ :=
  transcode_single_digit_inserts_decade ⟨strChars "ABC7", "XNAS"⟩ 1999
    (strChars "AB") 'C' '7' rfl rfl rfl

/-- Claim C2: on a symbol of at least two characters whose penultimate
character is a digit, the transcoder removes exactly the penultimate
character, keeping every other character in order including the final one; in
particular `ESH24.GLBX` with year 2024 transcodes to `ESH4.CME`. -/
theorem transcode_two_digit_drops_penultimate (id : InstrumentId) (year : Nat)
    (s : List Char) (p l : Char) (hsym : id.symbol = s ++ [p, l])
    (hp : p.isDigit = true) :
    map_instrumentId id year = .ok ⟨s ++ [l], mapVenue id.venue⟩ ∧
      map_instrumentId ⟨strChars "ESH24", "GLBX"⟩ 2024 = .ok ⟨strChars "ESH4", "CME"⟩ := by
  refine ⟨?_, rfl⟩
  apply map_instrumentId_ok
  rw [hsym, mapSymbol_append, if_pos hp]

/-- Witness for claim C2 at symbol `NQZ25`, venue `GLBX`, year 2024. -/
theorem transcode_two_digit_drops_penultimate_witness :
    map_instrumentId ⟨strChars "NQZ25", "GLBX"⟩ 2024 =
        .ok ⟨strChars "NQZ" ++ ['5'], mapVenue "GLBX"⟩ ∧
      map_instrumentId ⟨strChars "ESH24", "GLBX"⟩ 2024 = .ok ⟨strChars "ESH4", "CME"⟩ :=
  transcode_two_digit_drops_penultimate ⟨strChars "NQZ25", "GLBX"⟩ 2024
    (strChars "NQZ") '2' '5' rfl rfl

/-- Claim C3: for an externally aggregated bar type with price type LAST and
step 1, the resolver maps SECOND, MINUTE, HOUR, DAY respectively to
OHLCV_1S, OHLCV_1M, OHLCV_1H, OHLCV_1D. -/
theorem resolve_time_bars (bt : BarType)
    (hext : bt.aggregation_source = .EXTERNAL)
    (hpt : bt.spec.price_type = .LAST) (hstep : bt.spec.step = 1) :
    (bt.spec.aggregation = .SECOND →
        databento_schema_from_nautilus_bar_type bt = .ok .OHLCV_1S) ∧
      (bt.spec.aggregation = .MINUTE →
        databento_schema_from_nautilus_bar_type bt = .ok .OHLCV_1M) ∧
      (bt.spec.aggregation = .HOUR →
        databento_schema_from_nautilus_bar_type bt = .ok .OHLCV_1H) ∧
      (bt.spec.aggregation = .DAY →
        databento_schema_from_nautilus_bar_type bt = .ok .OHLCV_1D) := by
  obtain ⟨⟨agg, pt, step⟩, src⟩ := bt
  simp only at hext hpt hstep
  subst hext hpt hstep
  refine ⟨?_, ?_, ?_, ?_⟩ <;> (intro h; simp only at h; subst h; rfl)

/-- Witness for claim C3 at the MINUTE aggregation. -/
theorem resolve_time_bars_witness :
    databento_schema_from_nautilus_bar_type ⟨⟨.MINUTE, .LAST, 1⟩, .EXTERNAL⟩ =
      .ok .OHLCV_1M :=
  (resolve_time_bars ⟨⟨.MINUTE, .LAST, 1⟩, .EXTERNAL⟩ rfl rfl rfl).2.1 rfl

/-- Claim C4: for an externally aggregated bar type, the resolver fails with
the unsupported-bar-type error, carrying the rejected bar type's string form,
exactly when the aggregation is not time-based, the price type is not LAST,
the step is not 1, or the aggregation lies outside SECOND, MINUTE, HOUR,
DAY. -/
theorem resolve_unsupported_iff (bt : BarType)
    (hext : bt.aggregation_source = .EXTERNAL) :
    (∃ d, databento_schema_from_nautilus_bar_type bt =
        .error (.unsupportedBarType (barTypeStr bt) d)) ↔
      (bt.spec.is_time_aggregated = false ∨ bt.spec.price_type ≠ .LAST ∨
        bt.spec.step ≠ 1 ∨
        (bt.spec.aggregation ≠ .SECOND ∧ bt.spec.aggregation ≠ .MINUTE ∧
          bt.spec.aggregation ≠ .HOUR ∧ bt.spec.aggregation ≠ .DAY)) := by
  obtain ⟨⟨agg, pt, step⟩, src⟩ := bt
  simp only at hext
  subst hext
  by_cases hs : step = 1 <;>
    cases agg <;> cases pt <;>
      simp_all [databento_schema_from_nautilus_bar_type,
        BarSpecification.is_time_aggregated, BarType.is_externally_aggregated]

/-- Witness for claim C4 at the step-5 minute bar from the spec's test
list. -/
theorem resolve_unsupported_iff_witness :
    ∃ d, databento_schema_from_nautilus_bar_type ⟨⟨.MINUTE, .LAST, 5⟩, .EXTERNAL⟩ =
      .error (.unsupportedBarType (barTypeStr ⟨⟨.MINUTE, .LAST, 5⟩, .EXTERNAL⟩) d) :=
  (resolve_unsupported_iff ⟨⟨.MINUTE, .LAST, 5⟩, .EXTERNAL⟩ rfl).mpr
    (Or.inr (Or.inr (Or.inl (by decide))))

/-- Claim C5: for a bar type whose aggregation source is not EXTERNAL the
resolver fails with the contract violation — an error distinct from the
unsupported-bar-type error — regardless of every other field, so the check
precedes all other validation. -/
theorem resolve_contract_violation (bt : BarType)
    (h : bt.aggregation_source ≠ .EXTERNAL) :
    databento_schema_from_nautilus_bar_type bt =
        .error (.contractViolation "aggregation_source is not EXTERNAL") ∧
      (∀ b d, (ResolveError.contractViolation "aggregation_source is not EXTERNAL") ≠
        .unsupportedBarType b d) := by
  constructor
  · obtain ⟨⟨agg, pt, step⟩, src⟩ := bt
    simp only at h
    cases src with
    | EXTERNAL => exact absurd rfl h
    | INTERNAL => rfl
  · intro b d hc
    exact ResolveError.noConfusion hc

/-- Witness for claim C5 at an INTERNAL bar type with all other fields
valid. -/
theorem resolve_contract_violation_witness :
    databento_schema_from_nautilus_bar_type ⟨⟨.MINUTE, .LAST, 1⟩, .INTERNAL⟩ =
        .error (.contractViolation "aggregation_source is not EXTERNAL") ∧
      (∀ b d, (ResolveError.contractViolation "aggregation_source is not EXTERNAL") ≠
        .unsupportedBarType b d) :=
  resolve_contract_violation ⟨⟨.MINUTE, .LAST, 1⟩, .INTERNAL⟩ (by simp)

/-- Claim C6: on a symbol that is empty or shorter than the two characters
the rewrite rule inspects, the transcoder fails with the malformed-identifier
error (the propagated IndexError of the source), returning no result. -/
theorem transcode_short_symbol_error (id : InstrumentId) (year : Nat)
    (h : id.symbol.length < 2) :
    map_instrumentId id year = .error .malformedIdentifier := by
  rw [map_instrumentId, mapSymbol_short id.symbol year h]

/-- Witness for claim C6 at the one-character digit symbol `4`. -/
theorem transcode_short_symbol_error_witness :
    (⟨strChars "4", "CME"⟩ : InstrumentId).symbol.length < 2 ∧
      map_instrumentId ⟨strChars "4", "CME"⟩ 2024 = .error .malformedIdentifier :=
  ⟨by decide, transcode_short_symbol_error ⟨strChars "4", "CME"⟩ 2024 (by decide)⟩

/-- Claim C7: across two successful transcodes the venue returns to its
original value whenever it lies in the GLBX/CME pair, and a venue outside the
pair passes through a single transcode unchanged. -/
theorem transcode_venue_involution (x y z : InstrumentId) (year1 year2 : Nat)
    (hxy : map_instrumentId x year1 = .ok y)
    (hyz : map_instrumentId y year2 = .ok z) :
    ((x.venue = "GLBX" ∨ x.venue = "CME") → z.venue = x.venue) ∧
      (x.venue ≠ "GLBX" → x.venue ≠ "CME" → y.venue = x.venue) := by
  have hy := map_instrumentId_venue x y year1 hxy
  have hz := map_instrumentId_venue y z year2 hyz
  constructor
  · intro _
    rw [hz, hy, mapVenue_involutive]
  · intro h1 h2
    rw [hy, mapVenue_fixed x.venue h1 h2]

/-- Witness for claim C7 on the round trip `ESH4.CME` to `ESH24.GLBX` and
back. -/
theorem transcode_venue_involution_witness :
    ((("CME" : String) = "GLBX" ∨ ("CME" : String) = "CME") →
        (⟨strChars "ESH4", "CME"⟩ : InstrumentId).venue = "CME") ∧
      (("CME" : String) ≠ "GLBX" → ("CME" : String) ≠ "CME" →
        (⟨strChars "ESH24", "GLBX"⟩ : InstrumentId).venue = "CME") :=
  transcode_venue_involution ⟨strChars "ESH4", "CME"⟩ ⟨strChars "ESH24", "GLBX"⟩
    ⟨strChars "ESH4", "CME"⟩ 2024 2024 rfl rfl

/-- Counterexample to claim C8 as stated: the one-character symbol `A` has no
trailing digit and no penultimate character, yet the transcoder raises the
malformed-identifier error instead of returning the symbol unchanged with the
venue swapped. -/
theorem transcode_no_digit_passthrough_counterexample :
    ('A'.isDigit = false) ∧
      map_instrumentId ⟨strChars "A", "GLBX"⟩ 2024 = .error .malformedIdentifier ∧
      map_instrumentId ⟨strChars "A", "GLBX"⟩ 2024 ≠ .ok ⟨strChars "A", "CME"⟩ := by
  refine ⟨rfl, rfl, ?_⟩
  intro h
  exact Except.noConfusion h

/-- Claim C8 as amended: on a symbol of at least two characters whose final
and penultimate characters are both non-digits, the transcoder returns the
symbol unchanged with only the venue rewritten; in particular `SPY.GLBX`
transcodes to `SPY.CME`. -/
theorem transcode_no_digit_passthrough (id : InstrumentId) (year : Nat)
    (s : List Char) (p l : Char) (hsym : id.symbol = s ++ [p, l])
    (hp : p.isDigit = false) (hl : l.isDigit = false) :
    map_instrumentId id year = .ok ⟨id.symbol, mapVenue id.venue⟩ ∧
      map_instrumentId ⟨strChars "SPY", "GLBX"⟩ 2024 = .ok ⟨strChars "SPY", "CME"⟩ := by
  refine ⟨?_, rfl⟩
  apply map_instrumentId_ok
  rw [hsym, mapSymbol_append, if_neg (by simp [hp]), if_neg (by simp [hl])]

/-- Witness for the amended claim C8 at symbol `SPY`, venue `XNAS`. -/
theorem transcode_no_digit_passthrough_witness :
    map_instrumentId ⟨strChars "SPY", "XNAS"⟩ 2024 =
        .ok ⟨(⟨strChars "SPY", "XNAS"⟩ : InstrumentId).symbol, mapVenue "XNAS"⟩ ∧
      map_instrumentId ⟨strChars "SPY", "GLBX"⟩ 2024 = .ok ⟨strChars "SPY", "CME"⟩ :=
  transcode_no_digit_passthrough ⟨strChars "SPY", "XNAS"⟩ 2024
    (strChars "S") 'P' 'Y' rfl rfl rfl

/-- Claim C9: the memoization keyed by the full input identifier returns a
cached output without re-running the rewrite — here even under a different
year — and transcoding 21 pairwise-distinct successfully rewritten
identifiers through the empty 20-entry LRU cache evicts the first inserted
entry. -/
theorem transcode_cache_hit_and_eviction
    (c : TranscodeCache) (k v : InstrumentId) (y : Nat)
    (ks : List InstrumentId) (year : Nat) (k0 : InstrumentId)
    (hv : c.lookup k = some v)
    (hlen : ks.length = 21) (hnd : ks.Nodup)
    (hok : ∀ i ∈ ks, transcodeOk i year = true)
    (hhd : ks.head? = some k0) :
    (cachedMapInstrumentId c k y).1 = .ok v ∧
      (runTranscodes ⟨[]⟩ ks year).lookup k0 = none := by
  constructor
  · rw [cachedMapInstrumentId, hv]
  · cases ks with
    | nil => exact absurd hhd (by simp)
    | cons a rest =>
      have hk0 : k0 = a := by
        have := hhd
        simp only [List.head?_cons, Option.some.injEq] at this
        exact this.symm
      subst hk0
      have hkeys := runTranscodes_keys year (k0 :: rest) [] hok hnd
        (by simp) (by simp [lruCapacity])
      apply lookup_eq_none
      rw [hkeys]
      have hrlen : rest.reverse.length = 20 := by
        simp only [List.length_reverse]
        simpa using hlen
      simp only [List.map_nil, List.append_nil, List.reverse_cons]
      intro hmem
      have : lruCapacity = rest.reverse.length := by rw [hrlen]; rfl
      rw [this, List.take_left] at hmem
      exact (List.nodup_cons.mp hnd).1 (List.mem_reverse.mp hmem)

/-- Witness for claim C9: a cached `ESH4.CME` entry is returned unchanged
even when queried with year 3031, and running the 21 distinct identifiers of
`evictionIds` through the empty cache evicts the first of them. -/
theorem transcode_cache_hit_and_eviction_witness :
    (cachedMapInstrumentId
        ⟨[(⟨strChars "ESH4", "CME"⟩, ⟨strChars "ESH24", "GLBX"⟩)]⟩
        ⟨strChars "ESH4", "CME"⟩ 3031).1 = .ok ⟨strChars "ESH24", "GLBX"⟩ ∧
      (runTranscodes ⟨[]⟩ evictionIds 2024).lookup ⟨strChars "AB", Nat.repr 0⟩ = none :=
  transcode_cache_hit_and_eviction
    ⟨[(⟨strChars "ESH4", "CME"⟩, ⟨strChars "ESH24", "GLBX"⟩)]⟩
    ⟨strChars "ESH4", "CME"⟩ ⟨strChars "ESH24", "GLBX"⟩ 3031
    evictionIds 2024 ⟨strChars "AB", Nat.repr 0⟩
    (by decide) (by decide) (by decide) (by decide) (by decide)

/-- Claim C10: whenever the transcoder returns normally, the first
`length - 2` characters of the input symbol are preserved unchanged and in
order as a prefix of the output symbol — every branch of the rewrite touches
only the last two character positions. -/
theorem transcode_preserves_stem (id : InstrumentId) (year : Nat)
    (out : InstrumentId) (h : map_instrumentId id year = .ok out) :
    ∃ t, out.symbol = id.symbol.take (id.symbol.length - 2) ++ t := by
  by_cases hlen : 2 ≤ id.symbol.length
  · obtain ⟨s, p, l, hsym⟩ := exists_append_two id.symbol hlen
    have htake : id.symbol.take (id.symbol.length - 2) = s := by
      rw [hsym]
      simp only [List.length_append, List.length_cons, List.length_nil]
      have : s.length + (0 + 1 + 1) - 2 = s.length := by omega
      rw [this, List.take_append_eq_append_take, List.take_length]
      simp
    rw [map_instrumentId] at h
    rw [htake]
    rw [hsym, mapSymbol_append] at h
    split_ifs at h <;> (cases h; exact ⟨_, rfl⟩)
  · rw [map_instrumentId, mapSymbol_short id.symbol year (by omega)] at h
    exact Except.noConfusion h

/-- Witness for claim C10 on the transcode of `ESH24.GLBX`. -/
theorem transcode_preserves_stem_witness :
    ∃ t, (⟨strChars "ESH4", "CME"⟩ : InstrumentId).symbol =
      (⟨strChars "ESH24", "GLBX"⟩ : InstrumentId).symbol.take
        ((⟨strChars "ESH24", "GLBX"⟩ : InstrumentId).symbol.length - 2) ++ t :=
  transcode_preserves_stem ⟨strChars "ESH24", "GLBX"⟩ 2024 ⟨strChars "ESH4", "CME"⟩ rfl

end Databento
